import Mathlib

/-
Verification of the transaction simulator (transaction_simulator.py).

The embedding mirrors the source module: Database becomes a list of
integers with the indexing rules of Python list assignment, LockManager
becomes a structure holding the shared defaultdict and the list of 32
exclusive holders, RecoveryManager.apply_log becomes a fold over log
entries, and simulate_transactions becomes a pure function threaded with
an explicit oracle for the seeded random source: one stream of rational
draws standing for random.random and one stream of naturals standing for
random.randint over the 32 slots.
-/

namespace TxnSim

/-- One record of the recovery log, mirroring the tuples built by
RecoveryManager.log_operation: transaction id, slot id (or the sentinel -1),
the optional observed value, and the operation code, which the source always
stores in the last tuple position. -/
structure LogEntry where
  tid : ℤ
  did : ℤ
  value : Option ℤ
  op : String
deriving DecidableEq

/-- Record appended at a transaction start (source line 208). -/
def startRecord (tid : ℕ) : LogEntry := ⟨tid, -1, none, "S"⟩

/-- Record appended after a successful exclusive write (source line 226). -/
def writeRecord (tid did : ℕ) : LogEntry := ⟨tid, did, none, "F"⟩

/-- Record appended after a successful shared read (source line 233); it
carries the observed value and the same operation code F as a write. -/
def readRecord (tid did : ℕ) (v : ℤ) : LogEntry := ⟨tid, did, some v, "F"⟩

/-- Record appended on rollback (source line 240); the slot field is -1. -/
def rollbackRecord (tid : ℕ) : LogEntry := ⟨tid, -1, none, "R"⟩

/-- Record appended on commit (source line 247); the slot field is -1. -/
def commitRecord (tid : ℕ) : LogEntry := ⟨tid, -1, none, "C"⟩

/-- Database.write through a Python list assignment: an index i with
0 <= i < len writes at position i, an index with -len <= i < 0 writes at
position len + i, and any other index raises IndexError, modeled as none. -/
def pyWrite (db : List ℤ) (i : ℤ) (v : ℤ) : Option (List ℤ) :=
  if 0 ≤ i ∧ i < (db.length : ℤ) then some (db.set i.toNat v)
  else if -(db.length : ℤ) ≤ i ∧ i < 0 then
    some (db.set ((db.length : ℤ) + i).toNat v)
  else none

/-- Effect of one log entry during RecoveryManager.apply_log: the operation
code is read from the last tuple position; code F writes 1 to the referenced
slot, code R writes 0, and every other code is ignored. -/
def applyEntry (db : List ℤ) (e : LogEntry) : Option (List ℤ) :=
  if e.op = "F" then pyWrite db e.did 1
  else if e.op = "R" then pyWrite db e.did 0
  else some db

/-- RecoveryManager.apply_log: fold the per-entry effect over the log. -/
def apply_log : List LogEntry → List ℤ → Option (List ℤ)
  | [], db => some db
  | e :: rest, db =>
      match applyEntry db e with
      | none => none
      | some db1 => apply_log rest db1

/-- LockManager state: shared is the defaultdict from slot to the set of
shared holders (a Python set, modeled as a duplicate-free list), excl is
the list of 32 optional exclusive holders. -/
@[ext] structure Lock where
  shared : ℕ → List ℕ
  excl : List (Option ℕ)

/-- Fresh lock manager: every shared set empty, 32 free exclusive slots. -/
def initLock : Lock := ⟨fun _ => [], List.replicate 32 none⟩

/-- Python set.add on a holder set. -/
def sadd (s : List ℕ) (t : ℕ) : List ℕ := if t ∈ s then s else s ++ [t]

/-- Python set.remove guarded by a membership test, as in release_locks. -/
def srem (s : List ℕ) (t : ℕ) : List ℕ := s.erase t

/-- LockManager.acquire_shared_lock: succeeds iff the slot has no exclusive
holder, in which case tid joins the shared set of the slot. -/
def acquire_shared_lock (lm : Lock) (tid i : ℕ) : Bool × Lock :=
  if lm.excl.getD i none = none then
    (true, { lm with
      shared := fun j => if j = i then sadd (lm.shared j) tid else lm.shared j })
  else (false, lm)

/-- LockManager.acquire_exclusive_lock: succeeds iff the slot has no
exclusive holder and an empty shared set. -/
def acquire_exclusive_lock (lm : Lock) (tid i : ℕ) : Bool × Lock :=
  if lm.excl.getD i none = none ∧ lm.shared i = [] then
    (true, { lm with excl := lm.excl.set i (some tid) })
  else (false, lm)

/-- LockManager.release_locks: drop tid from every exclusive slot and from
the shared set of each of the 32 slots. -/
def release_locks (lm : Lock) (tid : ℕ) : Lock :=
  { shared := fun j => if j < 32 then srem (lm.shared j) tid else lm.shared j
    excl := lm.excl.map (fun o => if o = some tid then none else o) }

/-- Lock states reachable from a fresh lock manager through the three
public operations, each called with an in-range slot. -/
inductive LockReach : Lock → Prop where
  | init : LockReach initLock
  | shr (lm : Lock) (tid i : ℕ) : i < 32 → LockReach lm →
      LockReach (acquire_shared_lock lm tid i).2
  | exc (lm : Lock) (tid i : ℕ) : i < 32 → LockReach lm →
      LockReach (acquire_exclusive_lock lm tid i).2
  | rel (lm : Lock) (tid : ℕ) : LockReach lm →
      LockReach (release_locks lm tid)

/-- Lookup in the blocked_transactions dict (a Python dict as an
association list in insertion order). -/
def dget : List (ℕ × ℕ) → ℕ → Option ℕ
  | [], _ => none
  | (a, b) :: rest, k => if a = k then some b else dget rest k

/-- Dict assignment: replace the value in place if the key exists,
otherwise append the new binding, as a Python dict does. -/
def dset : List (ℕ × ℕ) → ℕ → ℕ → List (ℕ × ℕ)
  | [], k, v => [(k, v)]
  | (a, b) :: rest, k, v =>
      if a = k then (k, v) :: rest else (a, b) :: dset rest k v

/-- Dict deletion of a key. -/
def ddel : List (ℕ × ℕ) → ℕ → List (ℕ × ℕ)
  | [], _ => []
  | (a, b) :: rest, k => if a = k then rest else (a, b) :: ddel rest k

/-- Command line parameters of the simulator. -/
structure Args where
  cycles : ℕ
  trans_size : ℕ
  start_prob : ℚ
  write_prob : ℚ
  rollback_prob : ℚ
  timeout : ℕ

/-- Oracle for the seeded random source: floats is the stream of values
returned by random.random, ints the stream feeding random.randint, and
fi, ii the positions of the next unread element of each stream. -/
structure Rand where
  floats : ℕ → ℚ
  ints : ℕ → ℕ
  fi : ℕ
  ii : ℕ

/-- Ghost observation of one attempted operation: which transaction tried
which slot, whether the attempt was a write, and whether the lock
acquisition succeeded. -/
structure Attempt where
  tid : ℕ
  did : ℕ
  isWrite : Bool
  ok : Bool
deriving DecidableEq

/-- Whole simulator state: database values, lock manager, recovery log,
active transaction list, blocked_transactions dict, plus the ghost trace
of attempted operations. -/
structure SimState where
  db : List ℤ
  lock : Lock
  log : List LogEntry
  active : List ℕ
  blocked : List (ℕ × ℕ)
  trace : List Attempt

/-- Operation part of the per-transaction loop body (source lines 219-236):
draw a slot, decide write against read, attempt the lock, and either apply
the operation and append its record or store the timeout in
blocked_transactions. -/
def opState (args : Args) (st : SimState) (r : Rand) (tid : ℕ) : SimState :=
  let did := r.ints r.ii % 32
  if r.floats r.fi < args.write_prob then
    let res := acquire_exclusive_lock st.lock tid did
    if res.1 then
      { st with
          lock := res.2
          db := st.db.set did 1
          log := st.log ++ [writeRecord tid did]
          trace := st.trace ++ [⟨tid, did, true, true⟩] }
    else
      { st with
          lock := res.2
          blocked := dset st.blocked tid args.timeout
          trace := st.trace ++ [⟨tid, did, true, false⟩] }
  else
    let res := acquire_shared_lock st.lock tid did
    if res.1 then
      { st with
          lock := res.2
          log := st.log ++ [readRecord tid did (st.db.getD did 0)]
          trace := st.trace ++ [⟨tid, did, false, true⟩] }
    else
      { st with
          lock := res.2
          blocked := dset st.blocked tid args.timeout
          trace := st.trace ++ [⟨tid, did, false, false⟩] }

/-- Rollback and commit checks at the end of the loop body (source lines
238-250): with the rollback draw below rollback_prob the transaction rolls
back; otherwise, when the active list has reached trans_size, it commits.
Both paths append the record, release every lock of tid and remove the
first occurrence of tid from the active list. -/
def finishPhase (args : Args) (st : SimState) (q2 : ℚ) (tid : ℕ) : SimState :=
  if q2 < args.rollback_prob then
    { st with
        log := st.log ++ [rollbackRecord tid]
        lock := release_locks st.lock tid
        active := st.active.erase tid }
  else if args.trans_size ≤ st.active.length then
    { st with
        log := st.log ++ [commitRecord tid]
        lock := release_locks st.lock tid
        active := st.active.erase tid }
  else st

/-- Full loop body for a transaction that is not skipped this cycle:
the operation part, then the rollback and commit checks. It consumes one
int draw and two float draws. -/
def stepBody (args : Args) (st : SimState) (r : Rand) (tid : ℕ) :
    SimState × Rand :=
  (finishPhase args (opState args st r tid) (r.floats (r.fi + 1)) tid,
   { r with ii := r.ii + 1, fi := r.fi + 2 })

/-- Per-transaction dispatch (source lines 210-217): a transaction present
in blocked_transactions with a positive counter is skipped after the
counter is decremented; one whose counter reached zero is removed from the
dict and runs the loop body; any other transaction runs the loop body. -/
def processTid (args : Args) (p : SimState × Rand) (tid : ℕ) :
    SimState × Rand :=
  match dget p.1.blocked tid with
  | some n =>
      if 0 < n then ({ p.1 with blocked := dset p.1.blocked tid (n - 1) }, p.2)
      else stepBody args { p.1 with blocked := ddel p.1.blocked tid } p.2 tid
  | none => stepBody args p.1 p.2 tid

/-- Admission of a new transaction (source lines 204-208): the new tid is
the current length of the active list plus one; it is appended to the
active list and a Start record is logged. -/
def admitTrans (st : SimState) : SimState :=
  { st with
      active := st.active ++ [st.active.length + 1]
      log := st.log ++ [startRecord (st.active.length + 1)] }

/-- One simulation cycle: with the admission draw below start_prob a new
transaction is admitted, then every transaction in a snapshot of the
active list is processed once, in order. -/
def runCycle (args : Args) (st : SimState) (r : Rand) : SimState × Rand :=
  let st1 := if r.floats r.fi < args.start_prob then admitTrans st else st
  st1.active.foldl (processTid args) (st1, { r with fi := r.fi + 1 })

/-- The cycle loop, by remaining cycle count. -/
def runCycles (args : Args) : ℕ → SimState → Rand → SimState × Rand
  | 0, st, r => (st, r)
  | Nat.succ n, st, r =>
      let p := runCycle args st r
      runCycles args n p.1 p.2

/-- State at entry of the cycle loop: the given database and log, a fresh
lock manager, no active and no blocked transactions, empty trace. -/
def initState (db : List ℤ) (log : List LogEntry) : SimState :=
  ⟨db, initLock, log, [], [], []⟩

/-- simulate_transactions: replay the loaded log into the loaded database,
then run the cycle loop. The periodic and final file flushes only persist
the in-memory log and database and are not modeled. A log whose replay
raises IndexError aborts the run, modeled as none. -/
def simulate_transactions (args : Args) (db0 : List ℤ) (log0 : List LogEntry)
    (r : Rand) : Option (SimState × Rand) :=
  match apply_log log0 db0 with
  | none => none
  | some db1 => some (runCycles args args.cycles (initState db1 log0) r)

/-- Count of the log records carrying a given operation code. -/
def countOp (log : List LogEntry) (o : String) : ℕ :=
  (log.filter (fun e => e.op = o)).length

/-- Float draws of a seeded random source all lie in the interval of
random.random, zero inclusive to one exclusive. -/
def goodF (f : ℕ → ℚ) : Prop := ∀ n, 0 ≤ f n ∧ f n < 1

/-- Invariant used for the rollback-only runs: no transaction is live,
no blocked entry or lock remains, no Commit record was written and the
Start and Rollback records pair up. -/
def cleanState (st : SimState) : Prop :=
  st.active = [] ∧ st.blocked = [] ∧ st.lock = initLock ∧
  countOp st.log "C" = 0 ∧ countOp st.log "S" = countOp st.log "R"


/-- Zero database of 32 slots, the fresh-start state after
clear_database_file. -/
def z32 : List ℤ := List.replicate 32 0

/-- Database with only the last slot set, used to expose the rollback
replay target. -/
def c2db : List ℤ := (List.replicate 32 0).set 31 1

/-- Parameters of the paragraph 8 scenario: cycles 3, trans_size 1, all
admissions and writes certain, no rollback, timeout 5. -/
def c3Args : Args := ⟨3, 1, 1, 1, 0, 5⟩

/-- Oracle for the paragraph 8 scenario: every float draw 0, slot draws
5, 9, 17. -/
def c3Rand : Rand := ⟨fun _ => 0, fun n => [5, 9, 17].getD n 0, 0, 0⟩

/-- Parameters of the blocking scenario for the timeout claim: 6 cycles,
trans_size 10 so nothing commits, certain writes, no rollback, timeout 3. -/
def c4Args : Args := ⟨6, 10, 1, 1, 0, 3⟩

/-- Oracle for the timeout scenario: admissions fire on cycles 0 and 1
only (the admission draws at positions 8, 11, 14, 17 are 5, above every
probability); transaction 2 draws slot 5 while transaction 1 holds it,
blocks, and after the timeout draws slot 9. -/
def c4Rand : Rand :=
  ⟨fun n => if n = 8 ∨ n = 11 ∨ n = 14 ∨ n = 17 then 5 else 0,
   fun n => [5, 6, 5, 7, 8, 10, 11, 9].getD n 0, 0, 0⟩

/-- Parameters of the stale-blocked-entry scenario: 3 cycles, trans_size
10, certain admissions and writes, rollback_prob 1 gated by the draws,
timeout 5. -/
def c8Args : Args := ⟨3, 10, 1, 1, 1, 5⟩

/-- Oracle for the stale-blocked-entry scenario: the rollback draws of
transaction 1 are 5 (no rollback), the rollback draw of transaction 2 on
cycle 1 is 0 (rollback); transaction 2 blocks on slot 5 the same cycle. -/
def c8Rand : Rand :=
  ⟨fun n => if n = 2 ∨ n = 5 ∨ n = 10 then 5 else 0,
   fun n => [5, 7, 5, 9].getD n 0, 0, 0⟩

/-- Lock state in which transaction 1 holds the exclusive lock on slot 5. -/
def wLockX : Lock := (acquire_exclusive_lock initLock 1 5).2

/-- Sample state with transaction 2 blocked at counter 3. -/
def wStBlocked : SimState := ⟨z32, initLock, [], [1, 2], [(2, 3)], []⟩

/-- Sample state with the blocked counter of transaction 2 at zero. -/
def wStZero : SimState := ⟨z32, initLock, [], [1, 2], [(2, 0)], []⟩

/-- Sample state with a lock conflict pending on slot 5. -/
def wStConf : SimState := ⟨z32, wLockX, [], [1, 2], [], []⟩

/-- Oracle drawing slot 5 and float 0 forever. -/
def wRand : Rand := ⟨fun _ => 0, fun _ => 5, 0, 0⟩

/-- Parameters forcing the write path, timeout 4. -/
def wArgsW : Args := ⟨1, 10, 1, 1, 0, 4⟩

/-- Parameters forcing the read path, timeout 4. -/
def wArgsR : Args := ⟨1, 10, 1, 0, 0, 4⟩

/-- Parameters with trans_size 2 for the commit check. -/
def wArgsC : Args := ⟨1, 2, 1, 1, 0, 1⟩

/-- Sample state with two active transactions, at the commit threshold. -/
def wStA : SimState := ⟨z32, initLock, [], [1, 2], [], []⟩

/-- Sample state with one active transaction, below the commit threshold. -/
def wStB : SimState := ⟨z32, initLock, [], [1], [], []⟩


/-- Parameters with rollback_prob 1 for the rollback-only scenario. -/
def c9Args : Args := ⟨3, 2, 1, 0, 1, 4⟩

/-- Oracle drawing 0 forever, within the range of random.random. -/
def c9Rand : Rand := ⟨fun _ => 0, fun _ => 0, 0, 0⟩

/-! Helper lemmas about the list and dict primitives. -/

lemma getD_replicate_none (n i : ℕ) :
    (List.replicate n (none : Option ℕ)).getD i none = none := by
  induction n generalizing i with
  | zero => cases i <;> rfl
  | succ n ih =>
    cases i with
    | zero => rfl
    | succ i => rw [List.replicate_succ]; exact ih i

lemma getD_set_self (l : List (Option ℕ)) (i : ℕ) (v : Option ℕ)
    (h : i < l.length) : (l.set i v).getD i none = v := by
  induction l generalizing i with
  | nil => simp at h
  | cons a l ih =>
    cases i with
    | zero => rfl
    | succ i => simpa using ih i (by simpa using h)

lemma getD_set_ne (l : List (Option ℕ)) (i j : ℕ) (v : Option ℕ)
    (h : i ≠ j) : (l.set i v).getD j none = l.getD j none := by
  induction l generalizing i j with
  | nil => rfl
  | cons a l ih =>
    cases i with
    | zero =>
      cases j with
      | zero => exact absurd rfl h
      | succ j => rfl
    | succ i =>
      cases j with
      | zero => rfl
      | succ j => simpa using ih i j (fun hh => h (by rw [hh]))

lemma map_rel_of_all_none (l : List (Option ℕ)) (tid : ℕ)
    (h : ∀ x ∈ l, x = none) :
    l.map (fun o => if o = some tid then none else o) = l := by
  induction l with
  | nil => rfl
  | cons a l ih =>
    have ha : a = none := h a (by simp)
    subst ha
    rw [List.map_cons, if_neg (by simp), ih (fun x hx => h x (by simp [hx]))]

lemma map_rel_set (l : List (Option ℕ)) (i tid : ℕ)
    (h : ∀ x ∈ l, x = none) :
    (l.set i (some tid)).map (fun o => if o = some tid then none else o) = l := by
  induction l generalizing i with
  | nil => rfl
  | cons a l ih =>
    have ha : a = none := h a (by simp)
    subst ha
    cases i with
    | zero =>
      rw [List.set_cons_zero, List.map_cons, if_pos rfl,
        map_rel_of_all_none l tid (fun x hx => h x (by simp [hx]))]
    | succ i =>
      rw [List.set_cons_succ, List.map_cons, if_neg (by simp),
        ih i (fun x hx => h x (by simp [hx]))]

lemma dget_dset_self (d : List (ℕ × ℕ)) (k v : ℕ) :
    dget (dset d k v) k = some v := by
  induction d with
  | nil => simp [dset, dget]
  | cons p rest ih =>
    obtain ⟨a, b⟩ := p
    by_cases hak : a = k
    · simp [dset, hak, dget]
    · simp [dset, hak, dget, ih]

/-! Helper lemmas about the simulator building blocks. -/

lemma apply_log_singleton (e : LogEntry) (db : List ℤ) :
    apply_log [e] db = applyEntry db e := by
  cases h : applyEntry db e <;> simp [apply_log, h]

lemma finishPhase_blocked (args : Args) (st : SimState) (q2 : ℚ) (tid : ℕ) :
    (finishPhase args st q2 tid).blocked = st.blocked := by
  unfold finishPhase
  split
  · rfl
  · split <;> rfl

lemma processTid_floats (args : Args) (p : SimState × Rand) (tid : ℕ) :
    ((processTid args p tid).2).floats = p.2.floats := by
  unfold processTid
  cases hd : dget p.1.blocked tid with
  | none => rfl
  | some n =>
    dsimp only
    split <;> rfl

lemma foldl_floats (args : Args) (l : List ℕ) (p : SimState × Rand) :
    ((l.foldl (processTid args) p).2).floats = p.2.floats := by
  induction l generalizing p with
  | nil => rfl
  | cons t l ih => rw [List.foldl_cons, ih, processTid_floats]

lemma runCycle_floats (args : Args) (st : SimState) (r : Rand) :
    ((runCycle args st r).2).floats = r.floats := by
  simp only [runCycle, foldl_floats]

lemma acquire_exclusive_init (tid i : ℕ) :
    acquire_exclusive_lock initLock tid i =
      (true, { initLock with excl := initLock.excl.set i (some tid) }) := by
  unfold acquire_exclusive_lock
  rw [if_pos ⟨getD_replicate_none 32 i, rfl⟩]

lemma acquire_shared_init (tid i : ℕ) :
    acquire_shared_lock initLock tid i =
      (true, { initLock with shared := fun j => if j = i then [tid] else [] }) := by
  have hc : initLock.excl.getD i none = none := getD_replicate_none 32 i
  unfold acquire_shared_lock
  rw [if_pos hc]
  refine congrArg (Prod.mk true) (Lock.ext (funext fun j => ?_) rfl)
  by_cases hj : j = i <;> simp [hj, sadd, initLock]

lemma release_set_init (tid i : ℕ) :
    release_locks { initLock with excl := initLock.excl.set i (some tid) } tid =
      initLock := by
  unfold release_locks
  refine Lock.ext (funext fun j => ?_) ?_
  · by_cases hj : j < 32 <;> simp [hj, srem, initLock]
  · exact map_rel_set _ i tid (fun x hx => List.eq_of_mem_replicate hx)

lemma release_sharedone_init (tid i : ℕ) (hi : i < 32) :
    release_locks
      { initLock with shared := fun j => if j = i then [tid] else [] } tid =
      initLock := by
  unfold release_locks
  refine Lock.ext (funext fun j => ?_) ?_
  · by_cases hj : j < 32
    · by_cases hji : j = i <;> simp [hj, hji, srem, initLock, hi]
    · have hji : j ≠ i := by omega
      simp [hj, hji, initLock]
  · exact map_rel_of_all_none _ tid (fun x hx => List.eq_of_mem_replicate hx)

lemma countOp_append (l : List LogEntry) (e : LogEntry) (o : String) :
    countOp (l ++ [e]) o = countOp l o + (if e.op = o then 1 else 0) := by
  by_cases h : e.op = o <;>
    simp [countOp, List.filter_append, List.filter, h]


/-! Claim theorems. -/

/-- Claim C1, counterexample: a Read record, which the source logs with the
operation code F and the observed value (line 233), is not a no-op for
replay: applied to the zero store it sets the referenced slot to 1. -/
theorem c1_counterexample :
    apply_log [readRecord 2 5 0] (List.replicate 32 0) =
      some ((List.replicate 32 0).set 5 1) ∧
    (List.replicate 32 0 : List ℤ).set 5 1 ≠ List.replicate 32 0 := by
  decide

/-- Claim C1, amended: replay applies every Write record by setting the
referenced slot to 1; a Read record shares the operation code F and is
replayed the same way, also setting the referenced slot to 1; Start and
Commit records leave the store unchanged. -/
theorem c1_amended (db : List ℤ) (t t2 d : ℕ) (v : ℤ) (hd : d < db.length) :
    apply_log [writeRecord t d] db = some (db.set d 1) ∧
    apply_log [readRecord t d v] db = some (db.set d 1) ∧
    apply_log [startRecord t2] db = some db ∧
    apply_log [commitRecord t2] db = some db := by
  have hw : pyWrite db (d : ℤ) 1 = some (db.set d 1) := by
    unfold pyWrite
    rw [if_pos ⟨Int.natCast_nonneg d, by exact_mod_cast hd⟩]
    rw [Int.toNat_natCast]
  refine ⟨?_, ?_, ?_, ?_⟩
  · rw [apply_log_singleton]
    unfold applyEntry writeRecord
    rw [if_pos rfl]
    exact hw
  · rw [apply_log_singleton]
    unfold applyEntry readRecord
    rw [if_pos rfl]
    exact hw
  · rw [apply_log_singleton]
    simp only [applyEntry, startRecord]
    rw [if_neg (by decide), if_neg (by decide)]
  · rw [apply_log_singleton]
    simp only [applyEntry, commitRecord]
    rw [if_neg (by decide), if_neg (by decide)]

/-- Claim C1, witness: the amended statement evaluated on the 32-slot zero
store at slot 5. -/
theorem c1_amended_witness :
    5 < z32.length ∧
    (apply_log [writeRecord 1 5] z32 = some (z32.set 5 1) ∧
     apply_log [readRecord 1 5 0] z32 = some (z32.set 5 1) ∧
     apply_log [startRecord 2] z32 = some z32 ∧
     apply_log [commitRecord 2] z32 = some z32) :=
  ⟨by decide, c1_amended z32 1 2 5 0 (by decide)⟩

/-- Claim C2, counterexample: after transaction 1 writes slot 5 and rolls
back, replay does not reset slot 5 (its most recently touched slot); the
Rollback record holds slot -1, so replay writes 0 to the last slot, 31. -/
theorem c2_counterexample :
    apply_log [writeRecord 1 5, rollbackRecord 1] c2db =
      some ((c2db.set 5 1).set 31 0) ∧
    (c2db.set 5 1).set 31 0 ≠ (c2db.set 5 1).set 5 0 := by
  decide

/-- Claim C2, amended: replay applies every Rollback record by writing the
unset value 0 at log slot -1, which a Python list assignment resolves to
the final slot of the store, index length minus one; the slots the
transaction actually touched are not reverted. -/
theorem c2_amended (db : List ℤ) (tid : ℕ) (h : 1 ≤ db.length) :
    apply_log [rollbackRecord tid] db = some (db.set (db.length - 1) 0) := by
  rw [apply_log_singleton]
  simp only [applyEntry, rollbackRecord]
  rw [if_neg (by decide), if_pos trivial]
  unfold pyWrite
  rw [if_neg (by omega), if_pos (by omega)]
  have hix : ((db.length : ℤ) + -1).toNat = db.length - 1 := by omega
  rw [hix]

/-- Claim C2, witness: the amended statement on the 32-slot store with the
last slot set; replay of a single Rollback record clears slot 31. -/
theorem c2_amended_witness :
    1 ≤ c2db.length ∧
    apply_log [rollbackRecord 7] c2db = some (c2db.set (c2db.length - 1) 0) :=
  ⟨by decide, c2_amended c2db 7 (by decide)⟩

/-- Claim C3, failing run: in the paragraph 8 scenario (3 cycles,
trans_size 1, certain admission and write, no rollback) every cycle
commits its transaction, the active list returns to empty, and the next
admission computes tid as length of the active list plus one, so all
three transactions carry tid 1; the claim expects tids 1, 2, 3 and no
reuse. -/
theorem c3_tid_reuse :
    (runCycles c3Args 3 (initState z32 []) c3Rand).1.log =
      [startRecord 1, writeRecord 1 5, commitRecord 1,
       startRecord 1, writeRecord 1 9, commitRecord 1,
       startRecord 1, writeRecord 1 17, commitRecord 1] := by
  decide

/-- Claim C6 (confirmed): acquire_exclusive_lock succeeds exactly when the
slot has no exclusive holder and an empty shared set; on success the slot
records tid as exclusive holder, on failure the lock table is unchanged,
and a holder of a shared lock on the slot can never acquire the exclusive
lock on it. -/
theorem c6_acquire_exclusive_spec (lm : Lock) (tid i : ℕ) (hi : i < 32)
    (hlen : lm.excl.length = 32) :
    ((acquire_exclusive_lock lm tid i).1 = true ↔
      lm.excl.getD i none = none ∧ lm.shared i = []) ∧
    ((acquire_exclusive_lock lm tid i).1 = true →
      (acquire_exclusive_lock lm tid i).2.excl.getD i none = some tid) ∧
    ((acquire_exclusive_lock lm tid i).1 = false →
      (acquire_exclusive_lock lm tid i).2 = lm) ∧
    (tid ∈ lm.shared i → (acquire_exclusive_lock lm tid i).1 = false) := by
  unfold acquire_exclusive_lock
  by_cases hc : lm.excl.getD i none = none ∧ lm.shared i = []
  · rw [if_pos hc]
    refine ⟨⟨fun _ => hc, fun _ => rfl⟩, fun _ => ?_, fun h => ?_, fun hmem => ?_⟩
    · exact getD_set_self lm.excl i (some tid) (by omega)
    · exact absurd h (by simp)
    · rw [hc.2] at hmem
      exact absurd hmem (List.not_mem_nil tid)
  · rw [if_neg hc]
    exact ⟨⟨fun h => absurd h (by simp), fun h => absurd h hc⟩,
           fun h => absurd h (by simp), fun _ => rfl, fun _ => rfl⟩

/-- Claim C6, witness: the specification evaluated on the fresh lock
manager at slot 3 for transaction 4. -/
theorem c6_witness :
    3 < 32 ∧ initLock.excl.length = 32 ∧
    (((acquire_exclusive_lock initLock 4 3).1 = true ↔
      initLock.excl.getD 3 none = none ∧ initLock.shared 3 = []) ∧
     ((acquire_exclusive_lock initLock 4 3).1 = true →
      (acquire_exclusive_lock initLock 4 3).2.excl.getD 3 none = some 4) ∧
     ((acquire_exclusive_lock initLock 4 3).1 = false →
      (acquire_exclusive_lock initLock 4 3).2 = initLock) ∧
     (4 ∈ initLock.shared 3 → (acquire_exclusive_lock initLock 4 3).1 = false)) :=
  ⟨by decide, by decide, c6_acquire_exclusive_spec initLock 4 3 (by decide) (by decide)⟩

/-- Claim C7 (confirmed): in the finishing checks of a per-transaction
step, a transaction whose rollback draw did not fire commits exactly when
the active list has reached trans_size: the Commit record is appended,
every lock of the transaction is released and it is removed from the
active list; below the threshold the state is returned unchanged. -/
theorem c7_commit_iff (args : Args) (st : SimState) (q2 : ℚ) (tid : ℕ)
    (hnr : ¬ q2 < args.rollback_prob) :
    (args.trans_size ≤ st.active.length →
      finishPhase args st q2 tid =
        { st with
            log := st.log ++ [commitRecord tid]
            lock := release_locks st.lock tid
            active := st.active.erase tid }) ∧
    (st.active.length < args.trans_size → finishPhase args st q2 tid = st) := by
  unfold finishPhase
  rw [if_neg hnr]
  constructor
  · intro hlen
    rw [if_pos hlen]
  · intro hlen
    rw [if_neg (by omega)]

/-- Claim C7, witness: with trans_size 2 and a rollback draw that does not
fire, a state with two active transactions commits transaction 1 and a
state with one active transaction is unchanged. -/
theorem c7_witness :
    (¬ (0 : ℚ) < wArgsC.rollback_prob) ∧
    (wArgsC.trans_size ≤ wStA.active.length ∧
      finishPhase wArgsC wStA 0 1 =
        { wStA with
            log := wStA.log ++ [commitRecord 1]
            lock := release_locks wStA.lock 1
            active := wStA.active.erase 1 }) ∧
    (wStB.active.length < wArgsC.trans_size ∧
      finishPhase wArgsC wStB 0 1 = wStB) :=
  ⟨by decide,
   ⟨by decide, (c7_commit_iff wArgsC wStA 0 1 (by decide)).1 (by decide)⟩,
   ⟨by decide, (c7_commit_iff wArgsC wStB 0 1 (by decide)).2 (by decide)⟩⟩

/-- Claim C10 (confirmed): the simulation is a pure function of the
parameters, the seeded random source and the loaded database and log, so
two runs with equal inputs return equal results, in particular equal final
logs and database snapshots. -/
theorem c10_deterministic (a1 a2 : Args) (db1 db2 : List ℤ)
    (lg1 lg2 : List LogEntry) (r1 r2 : Rand)
    (hA : a1 = a2) (hD : db1 = db2) (hL : lg1 = lg2) (hR : r1 = r2) :
    simulate_transactions a1 db1 lg1 r1 = simulate_transactions a2 db2 lg2 r2 := by
  subst hA
  subst hD
  subst hL
  subst hR
  rfl

/-- Claim C10, witness: two runs of the paragraph 8 scenario coincide. -/
theorem c10_witness :
    c3Args = c3Args ∧ z32 = z32 ∧ ([] : List LogEntry) = [] ∧
    c3Rand = c3Rand ∧
    simulate_transactions c3Args z32 [] c3Rand =
      simulate_transactions c3Args z32 [] c3Rand :=
  ⟨rfl, rfl, rfl, rfl,
   c10_deterministic c3Args c3Args z32 z32 [] [] c3Rand c3Rand rfl rfl rfl rfl⟩


/-- Helper: a map dropping the holder tid leaves an occupied slot occupied
only if it was occupied by another transaction before. -/
lemma getD_map_rel_ne_none (l : List (Option ℕ)) (tid i : ℕ)
    (h : (l.map (fun o => if o = some tid then none else o)).getD i none ≠ none) :
    l.getD i none ≠ none := by
  induction l generalizing i with
  | nil => exact absurd rfl h
  | cons a l ih =>
    cases i with
    | zero =>
      rw [List.map_cons, List.getD_cons_zero] at h
      rw [List.getD_cons_zero]
      by_cases ha : a = some tid
      · rw [if_pos ha] at h
        exact absurd rfl h
      · rwa [if_neg ha] at h
    | succ i =>
      rw [List.map_cons, List.getD_cons_succ] at h
      rw [List.getD_cons_succ]
      exact ih i h

/-- Claim C5 (confirmed): in every lock state reachable through
acquire_shared_lock, acquire_exclusive_lock and release_locks, a slot
with an exclusive holder has an empty shared set. -/
theorem c5_lock_invariant (lm : Lock) (h : LockReach lm) :
    ∀ i, i < 32 → lm.excl.getD i none ≠ none → lm.shared i = [] := by
  induction h with
  | init =>
    intro i hi hne
    exact absurd (getD_replicate_none 32 i) hne
  | shr lm0 tid0 i0 hi0 h0 ih =>
    intro i hi hne
    unfold acquire_shared_lock at hne ⊢
    by_cases hc : lm0.excl.getD i0 none = none
    · rw [if_pos hc] at hne ⊢
      dsimp only at hne ⊢
      by_cases hii : i = i0
      · subst hii
        exact absurd hc hne
      · rw [if_neg hii]
        exact ih i hi hne
    · rw [if_neg hc] at hne ⊢
      exact ih i hi hne
  | exc lm0 tid0 i0 hi0 h0 ih =>
    intro i hi hne
    unfold acquire_exclusive_lock at hne ⊢
    by_cases hc : lm0.excl.getD i0 none = none ∧ lm0.shared i0 = []
    · rw [if_pos hc] at hne ⊢
      dsimp only at hne ⊢
      by_cases hii : i = i0
      · subst hii
        exact hc.2
      · rw [getD_set_ne lm0.excl i0 i (some tid0) (fun hh => hii hh.symm)] at hne
        exact ih i hi hne
    · rw [if_neg hc] at hne ⊢
      exact ih i hi hne
  | rel lm0 tid0 h0 ih =>
    intro i hi hne
    unfold release_locks at hne ⊢
    dsimp only at hne ⊢
    have hne0 : lm0.excl.getD i none ≠ none :=
      getD_map_rel_ne_none lm0.excl tid0 i hne
    rw [if_pos hi, ih i hi hne0]
    rfl

/-- Claim C5, witness: the state after transaction 7 takes the exclusive
lock on slot 3 is reachable, occupies slot 3, and has an empty shared set
there. -/
theorem c5_witness :
    LockReach (acquire_exclusive_lock initLock 7 3).2 ∧ 3 < 32 ∧
    (acquire_exclusive_lock initLock 7 3).2.excl.getD 3 none ≠ none ∧
    (acquire_exclusive_lock initLock 7 3).2.shared 3 = [] := by
  have hr : LockReach (acquire_exclusive_lock initLock 7 3).2 :=
    LockReach.exc initLock 7 3 (by decide) LockReach.init
  exact ⟨hr, by decide, by decide, c5_lock_invariant _ hr 3 (by decide) (by decide)⟩

/-- Claim C4, amended: a blocked transaction with a positive counter is
skipped with only the counter decremented by one; a blocked transaction
whose counter reached zero is removed from the dict and runs the loop
body on freshly drawn slot and operation kind; a transaction that fails
the exclusive or the shared acquisition gets its blocked counter set to
exactly the configured timeout. -/
theorem c4_amended (args : Args) (st : SimState) (r : Rand) (tid n : ℕ) :
    (dget st.blocked tid = some (n + 1) →
      processTid args (st, r) tid =
        ({ st with blocked := dset st.blocked tid n }, r)) ∧
    (dget st.blocked tid = some 0 →
      processTid args (st, r) tid =
        stepBody args { st with blocked := ddel st.blocked tid } r tid) ∧
    (dget st.blocked tid = none → r.floats r.fi < args.write_prob →
      (acquire_exclusive_lock st.lock tid (r.ints r.ii % 32)).1 = false →
      dget ((processTid args (st, r) tid).1.blocked) tid = some args.timeout) ∧
    (dget st.blocked tid = none → ¬ r.floats r.fi < args.write_prob →
      (acquire_shared_lock st.lock tid (r.ints r.ii % 32)).1 = false →
      dget ((processTid args (st, r) tid).1.blocked) tid = some args.timeout) := by
  refine ⟨fun h => ?_, fun h => ?_, fun h hq hfail => ?_, fun h hq hfail => ?_⟩
  · unfold processTid
    rw [h]
    dsimp only
    rw [if_pos (by omega)]
    norm_num
  · unfold processTid
    rw [h]
    dsimp only
    rw [if_neg (by omega)]
  · unfold processTid
    rw [h]
    dsimp only
    unfold stepBody
    rw [finishPhase_blocked]
    unfold opState
    dsimp only
    rw [if_pos hq, hfail]
    rw [if_neg (by simp)]
    exact dget_dset_self st.blocked tid args.timeout
  · unfold processTid
    rw [h]
    dsimp only
    unfold stepBody
    rw [finishPhase_blocked]
    unfold opState
    dsimp only
    rw [if_neg hq, hfail]
    rw [if_neg (by simp)]
    exact dget_dset_self st.blocked tid args.timeout

/-- Claim C4, witness: the amended statement instantiated on concrete
states; a counter of 3 drops to 2 with nothing else changed, a counter of
0 is removed and the body runs, and a failing exclusive or shared
acquisition on slot 5 (held exclusively by transaction 1) sets the
counter of transaction 2 to the timeout 4. -/
theorem c4_amended_witness :
    (dget wStBlocked.blocked 2 = some (2 + 1) ∧
      processTid wArgsW (wStBlocked, wRand) 2 =
        ({ wStBlocked with blocked := dset wStBlocked.blocked 2 2 }, wRand)) ∧
    (dget wStZero.blocked 2 = some 0 ∧
      processTid wArgsW (wStZero, wRand) 2 =
        stepBody wArgsW { wStZero with blocked := ddel wStZero.blocked 2 } wRand 2) ∧
    (dget wStConf.blocked 2 = none ∧ wRand.floats wRand.fi < wArgsW.write_prob ∧
      (acquire_exclusive_lock wStConf.lock 2 (wRand.ints wRand.ii % 32)).1 = false ∧
      dget ((processTid wArgsW (wStConf, wRand) 2).1.blocked) 2 =
        some wArgsW.timeout) ∧
    (dget wStConf.blocked 2 = none ∧ ¬ wRand.floats wRand.fi < wArgsR.write_prob ∧
      (acquire_shared_lock wStConf.lock 2 (wRand.ints wRand.ii % 32)).1 = false ∧
      dget ((processTid wArgsR (wStConf, wRand) 2).1.blocked) 2 =
        some wArgsR.timeout) :=
  ⟨⟨by decide, (c4_amended wArgsW wStBlocked wRand 2 2).1 (by decide)⟩,
   ⟨by decide, (c4_amended wArgsW wStZero wRand 2 0).2.1 (by decide)⟩,
   ⟨by decide, by decide, by decide,
     (c4_amended wArgsW wStConf wRand 2 0).2.2.1 (by decide) (by decide) (by decide)⟩,
   ⟨by decide, by decide, by decide,
     (c4_amended wArgsR wStConf wRand 2 0).2.2.2 (by decide) (by decide) (by decide)⟩⟩

/-- Claim C4, counterexample: transaction 2 blocks on slot 5 during cycle
1 (trace position 2, a failed write attempt), counts down 3, 2, 1, 0 over
cycles 2 to 4 while attempting nothing, and retries on cycle 5, the
fourth cycle after blocking, as the claim says; but the retried attempt
(trace position 7) targets the freshly drawn slot 9, not slot 5, so the
transaction does not re-attempt the same slot operation it was blocked
on. -/
theorem c4_counterexample :
    (runCycles c4Args 6 (initState z32 []) c4Rand).1.trace =
      [⟨1, 5, true, true⟩, ⟨1, 6, true, true⟩, ⟨2, 5, true, false⟩,
       ⟨1, 7, true, true⟩, ⟨1, 8, true, true⟩, ⟨1, 10, true, true⟩,
       ⟨1, 11, true, true⟩, ⟨2, 9, true, true⟩] ∧
    (runCycles c4Args 2 (initState z32 []) c4Rand).1.blocked = [(2, 3)] ∧
    (runCycles c4Args 3 (initState z32 []) c4Rand).1.blocked = [(2, 2)] ∧
    (runCycles c4Args 4 (initState z32 []) c4Rand).1.blocked = [(2, 1)] ∧
    (runCycles c4Args 5 (initState z32 []) c4Rand).1.blocked = [(2, 0)] ∧
    (runCycles c4Args 6 (initState z32 []) c4Rand).1.blocked = [] ∧
    ((runCycles c4Args 6 (initState z32 []) c4Rand).1.trace.getD 7
        ⟨0, 0, false, false⟩).did ≠
      ((runCycles c4Args 6 (initState z32 []) c4Rand).1.trace.getD 2
        ⟨0, 0, false, false⟩).did := by
  decide

/-- Claim C8, failing run: transaction 2 blocks on slot 5 and rolls back
in the same cycle 1, so after that cycle the blocked dict still holds
tid 2 with the full counter 5 while tid 2 is no longer active; cycle 2
then admits a new transaction which, because tids are computed as length
of the active list plus one, reuses tid 2, inherits the stale counter and
is skipped on its admission cycle: the trace shows no attempt by the new
transaction after its Start record. -/
theorem c8_stale_blocked :
    ((runCycles c8Args 2 (initState z32 []) c8Rand).1.blocked = [(2, 5)] ∧
     (runCycles c8Args 2 (initState z32 []) c8Rand).1.active = [1]) ∧
    ((runCycles c8Args 3 (initState z32 []) c8Rand).1.blocked = [(2, 4)] ∧
     (runCycles c8Args 3 (initState z32 []) c8Rand).1.active = [1, 2] ∧
     (runCycles c8Args 3 (initState z32 []) c8Rand).1.log =
       [startRecord 1, writeRecord 1 5, startRecord 2, writeRecord 1 7,
        rollbackRecord 2, startRecord 2, writeRecord 1 9] ∧
     (runCycles c8Args 3 (initState z32 []) c8Rand).1.trace =
       [⟨1, 5, true, true⟩, ⟨1, 7, true, true⟩, ⟨2, 5, true, false⟩,
        ⟨1, 9, true, true⟩]) := by
  decide


/-- Helper: with a fresh lock table the loop body always acquires its
lock, so one step of a transaction appends exactly one operation record
with code F, leaves active and blocked untouched, and its lock state
returns to fresh once the locks of the transaction are released. -/
lemma opState_step_clean (args : Args) (st : SimState) (r : Rand) (tid : ℕ)
    (hl : st.lock = initLock) :
    (opState args st r tid).active = st.active ∧
    (opState args st r tid).blocked = st.blocked ∧
    release_locks (opState args st r tid).lock tid = initLock ∧
    ∃ e, (opState args st r tid).log = st.log ++ [e] ∧ e.op = "F" := by
  unfold opState
  dsimp only
  rw [hl]
  by_cases hq : r.floats r.fi < args.write_prob
  · rw [if_pos hq, acquire_exclusive_init tid (r.ints r.ii % 32)]
    dsimp only
    rw [if_pos rfl]
    exact ⟨rfl, rfl, release_set_init tid (r.ints r.ii % 32),
      writeRecord tid (r.ints r.ii % 32), rfl, rfl⟩
  · rw [if_neg hq, acquire_shared_init tid (r.ints r.ii % 32)]
    dsimp only
    rw [if_pos rfl]
    refine ⟨rfl, rfl,
      release_sharedone_init tid (r.ints r.ii % 32) (Nat.mod_lt _ (by norm_num)),
      readRecord tid (r.ints r.ii % 32) (st.db.getD (r.ints r.ii % 32) 0), rfl, rfl⟩

/-- Helper: with rollback certain, one full loop body of the only active
transaction returns the state to clean: the transaction rolls back, its
locks are released, and the log gains one operation record and one
Rollback record. -/
lemma stepBody_clean (args : Args) (st : SimState) (r : Rand) (tid : ℕ)
    (hrb : args.rollback_prob = 1) (hf : goodF r.floats)
    (hb : st.blocked = []) (hl : st.lock = initLock) (ha : st.active = [tid])
    (hC : countOp st.log "C" = 0)
    (hSR : countOp st.log "S" = countOp st.log "R" + 1) :
    cleanState (stepBody args st r tid).1 := by
  obtain ⟨hact, hbl, hrel, e, hlog, hop⟩ := opState_step_clean args st r tid hl
  have hq2 : r.floats (r.fi + 1) < args.rollback_prob := by
    rw [hrb]
    exact (hf (r.fi + 1)).2
  unfold stepBody finishPhase
  rw [if_pos hq2]
  refine ⟨?_, ?_, ?_, ?_, ?_⟩
  · dsimp only
    rw [hact, ha]
    simp
  · dsimp only
    rw [hbl, hb]
  · exact hrel
  · dsimp only
    rw [hlog, countOp_append, countOp_append, hC, hop]
    simp only [rollbackRecord]
    rw [if_neg (by decide), if_neg (by decide)]
  · dsimp only
    rw [hlog, countOp_append, countOp_append, countOp_append, countOp_append,
      hSR, hop]
    simp only [rollbackRecord]
    rw [if_neg (by decide), if_neg (by decide), if_neg (by decide), if_pos trivial]


/-- Helper: with rollback certain one whole cycle preserves the clean
invariant: either nothing is admitted and nothing runs, or the one
admitted transaction (always tid 1, the active list being empty) runs one
operation and rolls back within the same cycle. -/
lemma runCycle_clean (args : Args) (st : SimState) (r : Rand)
    (hrb : args.rollback_prob = 1) (hf : goodF r.floats)
    (hc : cleanState st) : cleanState (runCycle args st r).1 := by
  obtain ⟨ha, hb, hl, hC, hSR⟩ := hc
  unfold runCycle
  dsimp only
  by_cases h0 : r.floats r.fi < args.start_prob
  · rw [if_pos h0]
    have h1 : admitTrans st =
        { st with active := [1], log := st.log ++ [startRecord 1] } := by
      unfold admitTrans
      rw [ha]
      simp
    rw [h1]
    rw [List.foldl_cons, List.foldl_nil]
    unfold processTid
    dsimp only
    rw [hb]
    dsimp only [dget]
    refine stepBody_clean args _ _ 1 hrb ?_ rfl ?_ rfl ?_ ?_
    · exact hf
    · exact hl
    · rw [countOp_append, hC]
      simp only [startRecord]
      rw [if_neg (by decide)]
    · rw [countOp_append, countOp_append, hSR]
      simp only [startRecord]
      rw [if_pos trivial, if_neg (by decide)]
  · rw [if_neg h0]
    rw [ha, List.foldl_nil]
    exact ⟨ha, hb, hl, hC, hSR⟩

/-- Helper: the clean invariant is preserved through any number of
cycles. -/
lemma runCycles_clean (args : Args) (hrb : args.rollback_prob = 1) :
    ∀ (n : ℕ) (st : SimState) (r : Rand), goodF r.floats → cleanState st →
      cleanState (runCycles args n st r).1 := by
  intro n
  induction n with
  | zero => intro st r _ hc; exact hc
  | succ n ih =>
    intro st r hf hc
    unfold runCycles
    dsimp only
    apply ih
    · rw [runCycle_floats]
      exact hf
    · exact runCycle_clean args st r hrb hf hc

/-- Claim C9 (confirmed): with rollback_prob 1 and the float draws in the
range of random.random, a run from the cleared files ends with no Commit
record in the log, as many Rollback records as Start records, and an
empty active list, so every admitted transaction terminates and its
terminal record is a Rollback. -/
theorem c9_rollback_terminal (args : Args) (r : Rand) (p : SimState × Rand)
    (hrb : args.rollback_prob = 1) (hf : goodF r.floats)
    (hp : simulate_transactions args z32 [] r = some p) :
    countOp p.1.log "C" = 0 ∧ countOp p.1.log "S" = countOp p.1.log "R" ∧
    p.1.active = [] := by
  have hp2 : runCycles args args.cycles (initState z32 []) r = p := by
    have heq : simulate_transactions args z32 [] r =
        some (runCycles args args.cycles (initState z32 []) r) := rfl
    rw [heq] at hp
    exact Option.some.inj hp
  have hclean : cleanState (runCycles args args.cycles (initState z32 []) r).1 :=
    runCycles_clean args hrb args.cycles (initState z32 []) r hf
      ⟨rfl, rfl, rfl, rfl, rfl⟩
  rw [hp2] at hclean
  exact ⟨hclean.2.2.2.1, hclean.2.2.2.2, hclean.1⟩

/-- Claim C9, witness: a three-cycle run with rollback_prob 1 and all
draws 0 admits and rolls back a transaction each cycle. -/
theorem c9_witness :
    c9Args.rollback_prob = 1 ∧ goodF c9Rand.floats ∧
    (countOp (runCycles c9Args 3 (initState z32 []) c9Rand).1.log "C" = 0 ∧
     countOp (runCycles c9Args 3 (initState z32 []) c9Rand).1.log "S" =
       countOp (runCycles c9Args 3 (initState z32 []) c9Rand).1.log "R" ∧
     (runCycles c9Args 3 (initState z32 []) c9Rand).1.active = []) := by
  have hgood : goodF c9Rand.floats := fun n => ⟨le_refl 0, by show (0 : ℚ) < 1; norm_num⟩
  exact ⟨rfl, hgood,
    c9_rollback_terminal c9Args c9Rand
      (runCycles c9Args 3 (initState z32 []) c9Rand) rfl hgood rfl⟩

end TxnSim
